import Mathlib

/-!
Verification of the NY Times spelling-bee solver
(`src/spellingbeesolver.cpp`).

Characters of the C++ program (type `char`) are embedded as natural
numbers: a character is its code point, so `'a'` is `97`, `'n'` is `110`,
`'A'` is `65`, `'N'` is `78`, and the newline character is `10`.
Words (`std::string`) are lists of such numbers, the letter hive
(`std::unordered_set<char>`) is a list queried only through membership,
and the dictionary stream is the list of lines `std::getline` yields.
-/

/-- `static const size_t kMinWordLength = 4;`. -/
def kMinWordLength : Nat := 4

/-- C `toupper` in the default locale: maps `'a'`–`'z'` to `'A'`–`'Z'` and
leaves every other character unchanged. -/
def toupper (c : Nat) : Nat :=
  if 97 ≤ c ∧ c ≤ 122 then c - 32 else c

/-- Embedding of `isValidWord(word, letters, middle)`:
rejects words shorter than `kMinWordLength`, words in which `middle` does
not occur (`word.find(middle) == npos`), and words with a character whose
`letters.count` is zero; accepts everything else. -/
def isValidWord (word : List Nat) (letters : List Nat) (middle : Nat) : Bool :=
  if word.length < kMinWordLength then false
  else if !word.contains middle then false
  else word.all (fun ch => letters.contains ch)

/-- Embedding of `getLettersFromUser`: reads one input line, inserts the
upper-cased form of every character into the letter set, and returns the
upper-cased first character of the line (`input[0]` on an empty
`std::string` reads the null character, code `0`). Returns the pair
(letter set, middle letter). -/
def getLettersFromUser (input : List Nat) : List Nat × Nat :=
  (input.foldl (fun s c => s.insert (toupper c)) [], toupper (input.headD 0))

/-- Embedding of `solveSpellingBee(letters, middle, dictionary, result)`:
reads lines from the dictionary stream, pushes the valid ones onto the
back of `result`, and returns `result.size()`. The returned pair is the
final contents of `result` together with the returned count. -/
def solveSpellingBee (letters : List Nat) (middle : Nat)
    (dictionary : List (List Nat)) (result : List (List Nat)) :
    List (List Nat) × Nat :=
  match dictionary with
  | [] => (result, result.length)
  | word :: rest =>
    if isValidWord word letters middle then
      solveSpellingBee letters middle rest (result ++ [word])
    else
      solveSpellingBee letters middle rest result

/-- Embedding of `writeResultToFile`: the byte stream written to the output
file, each word followed by the newline `std::endl` emits. -/
def writeResultToFile : List (List Nat) → List Nat
  | [] => []
  | word :: rest => word ++ 10 :: writeResultToFile rest

/-- Reading a byte stream back line by line with `std::getline`: each line
is the bytes up to the next newline (the newline is consumed and
discarded), and `getline` fails—yielding no further lines—once the stream
is exhausted. -/
def readLines : List Nat → List (List Nat)
  | [] => []
  | c :: cs =>
    if c = 10 then [] :: readLines cs
    else
      match readLines cs with
      | [] => [[c]]
      | l :: ls => (c :: l) :: ls

/-- `isValidWord` accepts exactly the words of length at least four that
contain the middle letter and draw every character from the letter set. -/
lemma isValidWord_iff (word letters : List Nat) (middle : Nat) :
    isValidWord word letters middle = true ↔
      4 ≤ word.length ∧ middle ∈ word ∧ ∀ c ∈ word, c ∈ letters := by
  unfold isValidWord kMinWordLength
  split
  · rename_i hlen
    constructor
    · intro h
      simp at h
    · intro h
      exact absurd h.1 (by omega)
  · rename_i hlen
    split
    · rename_i hmid
      simp at hmid
      constructor
      · intro h
        simp at h
      · intro h
        exact absurd h.2.1 hmid
    · rename_i hmid
      rw [Nat.not_lt] at hlen
      simp at hmid
      simp [List.all_eq_true, hmid, hlen]

/-- Unfolding of the scan loop: the final vector is the initial vector
followed by the valid words in dictionary order, and the returned count is
its total length. -/
lemma solveSpellingBee_eq (letters : List Nat) (middle : Nat)
    (dictionary result : List (List Nat)) :
    solveSpellingBee letters middle dictionary result =
      (result ++ dictionary.filter (fun w => isValidWord w letters middle),
       result.length +
         (dictionary.filter (fun w => isValidWord w letters middle)).length) := by
  induction dictionary generalizing result with
  | nil => simp [solveSpellingBee]
  | cons word rest ih =>
    unfold solveSpellingBee
    by_cases hv : isValidWord word letters middle
    · simp [hv, ih, List.filter_cons]
      omega
    · simp [hv, ih, List.filter_cons]

/-- `toupper` never produces a lower-case letter. -/
lemma toupper_not_lower (c : Nat) : ¬ (97 ≤ toupper c ∧ toupper c ≤ 122) := by
  unfold toupper
  split <;> omega

/-- Membership in the letter set built by the insertion loop of
`getLettersFromUser`, with the accumulator generalized. -/
lemma mem_foldl_insert (input : List Nat) (acc : List Nat) (c : Nat) :
    c ∈ input.foldl (fun s x => s.insert (toupper x)) acc ↔
      c ∈ acc ∨ ∃ x ∈ input, c = toupper x := by
  induction input generalizing acc with
  | nil => simp
  | cons a as ih =>
    simp only [List.foldl_cons, ih, List.mem_insert_iff, List.mem_cons]
    constructor
    · rintro ((h | h) | ⟨x, hx, hcx⟩)
      · exact Or.inr ⟨a, Or.inl rfl, h⟩
      · exact Or.inl h
      · exact Or.inr ⟨x, Or.inr hx, hcx⟩
    · rintro (h | ⟨x, (rfl | hx), hcx⟩)
      · exact Or.inl (Or.inr h)
      · exact Or.inl (Or.inl hcx)
      · exact Or.inr ⟨x, hx, hcx⟩

/-- Every member of the letter set filled in by `getLettersFromUser` is the
upper-cased form of a character of the input line. -/
lemma mem_getLettersFromUser (input : List Nat) (c : Nat) :
    c ∈ (getLettersFromUser input).1 ↔ ∃ x ∈ input, c = toupper x := by
  simp [getLettersFromUser, mem_foldl_insert]

/-- `readLines` recovers a leading newline-free word written before a
newline, then continues on the rest of the stream. -/
lemma readLines_append (w rest : List Nat) (hw : 10 ∉ w) :
    readLines (w ++ 10 :: rest) = w :: readLines rest := by
  induction w with
  | nil => simp [readLines]
  | cons c cs ih =>
    have hc : c ≠ 10 := fun h => hw (h ▸ List.mem_cons_self c cs)
    have hcs : 10 ∉ cs := fun h => hw (List.mem_cons_of_mem c h)
    simp only [List.cons_append, readLines, if_neg hc, List.append_eq, ih hcs]

/-- Claim C1: for every word `w`, letter set `L`, and middle letter `m`,
`isValidWord w L m` is `false` whenever `w` is shorter than four
characters, and for every `w` of length at least four it is `true` iff `m`
occurs in `w` and every character of `w` is a member of `L`. -/
theorem isValidWord_correct (w L : List Nat) (m : Nat) :
    (w.length < 4 → isValidWord w L m = false) ∧
    (4 ≤ w.length → (isValidWord w L m = true ↔ m ∈ w ∧ ∀ c ∈ w, c ∈ L)) := by
  constructor
  · intro hlt
    cases hv : isValidWord w L m with
    | false => rfl
    | true => exact absurd ((isValidWord_iff w L m).mp hv).1 (by omega)
  · intro hge
    rw [isValidWord_iff]
    exact ⟨fun h => ⟨h.2.1, h.2.2⟩, fun h => ⟨hge, h.1, h.2⟩⟩

/-- Witness for C1 at concrete inputs: the three-character word `"abc"` is
rejected even over its own letters, and for the four-character word
`"NONO"` validity coincides with the membership conditions. -/
theorem isValidWord_correct_witness :
    isValidWord [97, 98, 99] [97, 98, 99] 97 = false ∧
    (isValidWord [78, 79, 78, 79] [78, 79] 78 = true ↔
      78 ∈ [78, 79, 78, 79] ∧ ∀ c ∈ [78, 79, 78, 79], c ∈ ([78, 79] : List Nat)) :=
  ⟨(isValidWord_correct [97, 98, 99] [97, 98, 99] 97).1 (by decide),
   (isValidWord_correct [78, 79, 78, 79] [78, 79] 78).2 (by decide)⟩

/-- Claim C2: starting from an empty result vector, the result list
produced by `solveSpellingBee` is exactly the subsequence of dictionary
lines accepted by `isValidWord`, in the dictionary's original order, with
no deduplication and no sorting. -/
theorem solveSpellingBee_filter_order (L : List Nat) (m : Nat)
    (dict : List (List Nat)) :
    (solveSpellingBee L m dict []).1 =
      dict.filter (fun w => isValidWord w L m) := by
  rw [solveSpellingBee_eq]
  simp

/-- Over an empty letter set, `isValidWord` rejects every word: short words
fail the length check and longer ones have a first character outside the
empty set. -/
lemma isValidWord_empty_letters (w : List Nat) (m : Nat) :
    isValidWord w [] m = false := by
  cases hv : isValidWord w [] m with
  | false => rfl
  | true =>
    obtain ⟨hlen, _, hall⟩ := (isValidWord_iff w [] m).mp hv
    cases w with
    | nil => simp at hlen
    | cons c cs => exact absurd (hall c (List.mem_cons_self c cs)) (List.not_mem_nil c)

/-- Claim C5: if the letter set is empty, the scan produces an empty
result list and reports zero words found, for every middle letter and
every dictionary. -/
theorem empty_letterset_empty_result (m : Nat) (dict : List (List Nat)) :
    (solveSpellingBee [] m dict []).1 = [] ∧
    (solveSpellingBee [] m dict []).2 = 0 := by
  rw [solveSpellingBee_eq]
  simp [isValidWord_empty_letters]

/-- Claim C6: a dictionary source that cannot be opened is a stream on
which `std::getline` immediately fails, so it yields no lines; the scan
over it returns the empty result list and a count of zero without any
failure, for every letter set and middle letter. -/
theorem no_lines_zero_results (L : List Nat) (m : Nat) :
    solveSpellingBee L m [] [] = ([], 0) := rfl

/-- Claim C10: for every initial contents of the result vector,
`solveSpellingBee` only appends: the pre-existing elements survive
unchanged as a prefix, the returned count is the total length of the
vector after the scan, and that count equals the number of accepted words
precisely when the vector started empty. -/
theorem solveSpellingBee_frame (L : List Nat) (m : Nat)
    (dict result : List (List Nat)) :
    (solveSpellingBee L m dict result).1 =
      result ++ dict.filter (fun w => isValidWord w L m) ∧
    (solveSpellingBee L m dict result).2 =
      result.length + (dict.filter (fun w => isValidWord w L m)).length ∧
    ((solveSpellingBee L m dict result).2 =
        (dict.filter (fun w => isValidWord w L m)).length ↔ result = []) := by
  rw [solveSpellingBee_eq]
  refine ⟨rfl, rfl, ?_⟩
  constructor
  · intro h
    have hr : result.length = 0 := by omega
    exact List.length_eq_zero.mp hr
  · rintro rfl
    simp

/-- Lower-case letters never belong to a letter set produced by
`getLettersFromUser`, since every member of that set is an upper-cased
character. -/
lemma lower_not_mem_letters (input : List Nat) (c : Nat)
    (hc : 97 ≤ c ∧ c ≤ 122) : c ∉ (getLettersFromUser input).1 := by
  intro hmem
  obtain ⟨x, _, rfl⟩ := (mem_getLettersFromUser input c).mp hmem
  exact toupper_not_lower x hc

/-- Claim C3: against any letter set produced by `getLettersFromUser`
(whose members are all upper-cased), `isValidWord` rejects every word made
entirely of lower-case letters, regardless of the word's length, its
letters, or the middle letter. -/
theorem lowercase_word_rejected (input w : List Nat) (m : Nat)
    (h : ∀ c ∈ w, 97 ≤ c ∧ c ≤ 122) :
    isValidWord w (getLettersFromUser input).1 m = false := by
  cases hv : isValidWord w (getLettersFromUser input).1 m with
  | false => rfl
  | true =>
    obtain ⟨hlen, _, hall⟩ :=
      (isValidWord_iff w (getLettersFromUser input).1 m).mp hv
    cases w with
    | nil => simp at hlen
    | cons c cs =>
      exact absurd (hall c (List.mem_cons_self c cs))
        (lower_not_mem_letters input c (h c (List.mem_cons_self c cs)))

/-- Witness for C3: with the hive entered as `"nabloty"`, the lower-case
word `"nana"` is rejected even though its upper-cased form would pass. -/
theorem lowercase_word_rejected_witness :
    isValidWord [110, 97, 110, 97]
      (getLettersFromUser [110, 97, 98, 108, 111, 116, 121]).1 110 = false :=
  lowercase_word_rejected [110, 97, 98, 108, 111, 116, 121]
    [110, 97, 110, 97] 110 (by decide)

/-- Claim C9: for every non-empty input line, the middle character
returned by `getLettersFromUser` is a member of the letter set it fills
in, both being upper-cased from the same input. -/
theorem middle_mem_letters (input : List Nat) (h : input ≠ []) :
    (getLettersFromUser input).2 ∈ (getLettersFromUser input).1 := by
  cases input with
  | nil => exact absurd rfl h
  | cons c cs =>
    rw [mem_getLettersFromUser]
    exact ⟨c, List.mem_cons_self c cs, rfl⟩

/-- Witness for C9 on the concrete input line `"na"`. -/
theorem middle_mem_letters_witness :
    (getLettersFromUser [110, 97]).2 ∈ (getLettersFromUser [110, 97]).1 :=
  middle_mem_letters [110, 97] (by decide)

/-- Claim C7: the scan is deterministic: two runs over the same dictionary
with the same middle letter and letter sets of identical membership—in
particular, two identical runs, or runs whose `unordered_set` enumerates
its elements in different orders—produce identical result lists and
counts. -/
theorem solveSpellingBee_deterministic (L₁ L₂ : List Nat) (m : Nat)
    (dict result : List (List Nat)) (h : ∀ c, c ∈ L₁ ↔ c ∈ L₂) :
    solveSpellingBee L₁ m dict result = solveSpellingBee L₂ m dict result := by
  have hvw : ∀ w, isValidWord w L₁ m = isValidWord w L₂ m := by
    intro w
    rw [Bool.eq_iff_iff, isValidWord_iff, isValidWord_iff]
    constructor
    · rintro ⟨h1, h2, h3⟩
      exact ⟨h1, h2, fun c hc => (h c).mp (h3 c hc)⟩
    · rintro ⟨h1, h2, h3⟩
      exact ⟨h1, h2, fun c hc => (h c).mpr (h3 c hc)⟩
  rw [solveSpellingBee_eq, solveSpellingBee_eq, funext hvw]

/-- Witness for C7: the letter sets `{A, B}` and `{B, A}` listed in
different orders give the same scan output. -/
theorem solveSpellingBee_deterministic_witness :
    solveSpellingBee [65, 66] 65 [[65, 65, 65, 65]] [] =
      solveSpellingBee [66, 65] 65 [[65, 65, 65, 65]] [] :=
  solveSpellingBee_deterministic [65, 66] [66, 65] 65 [[65, 65, 65, 65]] []
    (fun c => by simp [List.mem_cons, or_comm])

/-- Claim C8: serializing a result list whose words contain no newline
with `writeResultToFile` and reading the destination back line by line
reproduces the same ordered sequence of words. -/
theorem write_read_roundtrip (result : List (List Nat))
    (h : ∀ w ∈ result, 10 ∉ w) :
    readLines (writeResultToFile result) = result := by
  induction result with
  | nil => rfl
  | cons w ws ih =>
    rw [writeResultToFile, readLines_append w _ (h w (List.mem_cons_self w ws)),
      ih (fun x hx => h x (List.mem_cons_of_mem w hx))]

/-- Witness for C8 on the concrete two-word result list `["BA", "C"]`. -/
theorem write_read_roundtrip_witness :
    readLines (writeResultToFile [[66, 65], [67]]) = [[66, 65], [67]] :=
  write_read_roundtrip [[66, 65], [67]] (by decide)

/-- Counterexample to claim C4 as stated: with the upper-case letter set
`{A, B, L, N, O, T, Y}` and middle letter `'N'`, scanning the lower-case
dictionary `["ant", "baton", "balloon", "tybalt", "xyz"]` produces the
empty result list—case-sensitive membership rejects every word—and not
`["baton", "balloon"]`. -/
theorem example_uppercase_set_rejects_all :
    (solveSpellingBee [65, 66, 76, 78, 79, 84, 89] 78
        [[97, 110, 116], [98, 97, 116, 111, 110],
         [98, 97, 108, 108, 111, 111, 110],
         [116, 121, 98, 97, 108, 116], [120, 121, 122]] []).1 = [] ∧
    (solveSpellingBee [65, 66, 76, 78, 79, 84, 89] 78
        [[97, 110, 116], [98, 97, 116, 111, 110],
         [98, 97, 108, 108, 111, 111, 110],
         [116, 121, 98, 97, 108, 116], [120, 121, 122]] []).1 ≠
      [[98, 97, 116, 111, 110], [98, 97, 108, 108, 111, 111, 110]] := by
  constructor
  · rfl
  · decide

/-- Claim C4 amended: with the letter set in the same case as the
dictionary—lower-case `{a, b, l, n, o, t, y}` and middle letter `'n'`—
scanning the dictionary `["ant", "baton", "balloon", "tybalt", "xyz"]`
produces exactly the result list `["baton", "balloon"]` in that order. -/
theorem example_lowercase_set_matches :
    (solveSpellingBee [97, 98, 108, 110, 111, 116, 121] 110
        [[97, 110, 116], [98, 97, 116, 111, 110],
         [98, 97, 108, 108, 111, 111, 110],
         [116, 121, 98, 97, 108, 116], [120, 121, 122]] []).1 =
      [[98, 97, 116, 111, 110], [98, 97, 108, 108, 111, 111, 110]] := by
  rfl
